import Mathlib

/- Verification of the image-combination core of the repository
   (src/image_processor.py, class ImageProcessor) against its design
   document.  A numpy ndarray is modelled as `Image`: its `shape` list
   ([h, w] for a 2-D grayscale array, [h, w, c] for a 3-D one), a total
   pixel function `px row col chan` (a total extension of the finite
   array; a 2-D array ignores `chan`), and a `u8` flag standing for
   `dtype == np.uint8`.  Element values are natural numbers.  The OpenCV
   library calls made by the source are modelled from their documented
   semantics; each model carries a doc comment saying exactly what was
   assumed.  Fallible library calls return `Except CvErr`. -/

namespace ImageHW

/-- Errors raised by the modelled OpenCV calls (python `cv2.error`).
`emptySource`: a geometric transform was given an empty source array;
`badTargetSize`: `cv2.resize` was asked for a zero target dimension;
`badChannels`: `cv2.cvtColor` got an unsupported channel count;
`sizeMismatch`: a binary per-element operation got arrays whose size or
type differ. -/
inductive CvErr where
  | emptySource
  | badTargetSize
  | badChannels
  | sizeMismatch
deriving DecidableEq

/-- Model of a numpy image array: shape list, total pixel function
(row, column, channel), and whether the dtype is uint8. -/
structure Image where
  shape : List Nat
  px : Nat → Nat → Nat → Nat
  u8 : Bool

/-- `img.shape[0]` — the number of rows. -/
def Image.height (img : Image) : Nat := img.shape.getD 0 0

/-- `img.shape[1]` — the number of columns. -/
def Image.width (img : Image) : Nat := img.shape.getD 1 0

/-- `self.max_dimension` set in `ImageProcessor.__init__`. -/
def max_dimension : Nat := 2048

/-- A buffer the design document calls a valid PixelBuffer: positive
height and width and either a 2-D (single channel) or a 3-channel 3-D
shape. -/
def Valid (img : Image) : Prop :=
  0 < img.height ∧ 0 < img.width ∧
    (img.shape = [img.height, img.width] ∨
      img.shape = [img.height, img.width, 3])

instance (img : Image) : Decidable (Valid img) := by
  unfold Valid; infer_instance

/-- Model of `cv2.resize(img, (tw, th), interpolation=cv2.INTER_AREA)`
pixel values: destination pixel (i, j) is the floor of the mean of the
source block of rows [i*h/th, (i+1)*h/th) and columns
[j*w/tw, (j+1)*w/tw).  This is INTER_AREA area averaging with block
boundaries floored to whole pixels; the source only ever shrinks images
(both resize call sites use a target no larger than the source), where
INTER_AREA averages the covered source area.  An empty block yields 0
(never reached at in-range indices of a genuine downscale). -/
def areaAvgPx (img : Image) (th tw : Nat) (i j k : Nat) : Nat :=
  (∑ r ∈ Finset.range ((i + 1) * img.height / th - i * img.height / th),
    ∑ c ∈ Finset.range ((j + 1) * img.width / tw - j * img.width / tw),
      img.px (i * img.height / th + r) (j * img.width / tw + c) k) /
    (((i + 1) * img.height / th - i * img.height / th) *
      ((j + 1) * img.width / tw - j * img.width / tw))

/-- Model of `cv2.resize(img, (tw, th), interpolation=cv2.INTER_AREA)`:
raises if the source is empty (OpenCV asserts `!ssize.empty()`) or if a
requested target dimension is zero (a zero `dsize` component makes
OpenCV fall back to the zero `fx`/`fy` scale factors and assert);
otherwise it keeps the channel structure and dtype and produces the
area-averaged pixels. -/
def resizeCv (img : Image) (tw th : Nat) : Except CvErr Image :=
  if img.height = 0 ∨ img.width = 0 then .error .emptySource
  else if th = 0 ∨ tw = 0 then .error .badTargetSize
  else .ok { shape := [th, tw] ++ img.shape.drop 2,
             px := areaAvgPx img th tw,
             u8 := img.u8 }

/-- `ImageProcessor.resize_to_match`: if the two images already share
height and width they are returned unchanged; otherwise both are
resized to (min height, min width) with INTER_AREA. -/
def resize_to_match (img1 img2 : Image) : Except CvErr (Image × Image) :=
  if img1.height = img2.height ∧ img1.width = img2.width then
    .ok (img1, img2)
  else do
    let r1 ← resizeCv img1 (min img1.width img2.width)
      (min img1.height img2.height)
    let r2 ← resizeCv img2 (min img1.width img2.width)
      (min img1.height img2.height)
    .ok (r1, r2)

/-- `ImageProcessor.resize_if_needed`: when a dimension exceeds 2048 the
source computes `scale = min(2048/height, 2048/width)` in floating
point and the new size `int(width*scale)`, `int(height*scale)`.  It is
modelled in exact rational arithmetic:
`min(2048/h, 2048/w) = 2048 / max h w` and `int` of a nonnegative value
is floor, hence floor division by `max h w`. -/
def resize_if_needed (img : Image) : Except CvErr Image :=
  if max_dimension < img.height ∨ max_dimension < img.width then
    resizeCv img (img.width * max_dimension / max img.height img.width)
      (img.height * max_dimension / max img.height img.width)
  else .ok img

/-- `ImageProcessor.optimize_memory_usage`: resize if needed, then, when
the dtype is not uint8, `img.astype(np.uint8)`.  The numpy cast to uint8
is a C-style integral conversion, i.e. wraparound modulo 256 (not
saturation). -/
def optimize_memory_usage (img : Image) : Except CvErr Image := do
  let r ← resize_if_needed img
  if r.u8 then .ok r
  else .ok { r with px := fun i j k => r.px i j k % 256, u8 := true }

/-- Model of OpenCV's fixed-point BGR to gray conversion used by
`cv2.cvtColor(img, cv2.COLOR_BGR2GRAY)` on 8-bit data: the standard
luma weights 0.299 (R), 0.587 (G), 0.114 (B) are represented as
4899, 9617, 1868 over 2 to the 14, and the weighted sum is rounded by
adding half the denominator before shifting.  Channel order of the
repository's buffers is BGR (see file_handler.py), so argument order is
(blue, green, red). -/
def bgr2grayPx (b g r : Nat) : Nat :=
  (1868 * b + 9617 * g + 4899 * r + 8192) / 16384

/-- Model of `cv2.cvtColor(img, cv2.COLOR_BGR2GRAY)`: raises on an
empty source (OpenCV asserts `!_src.empty()`), accepts a 3-D source
with 3 or 4 channels (BGR2GRAY reads the first three channels and
ignores an alpha channel), and produces a 2-D array of the same dtype
with the fixed-point luma of each pixel. -/
def cvtColor_BGR2GRAY (img : Image) : Except CvErr Image :=
  if img.height = 0 ∨ img.width = 0 then .error .emptySource
  else if img.shape.getD 2 0 = 3 ∨ img.shape.getD 2 0 = 4 then
    .ok { shape := [img.height, img.width],
          px := fun i j _ => bgr2grayPx (img.px i j 0) (img.px i j 1)
            (img.px i j 2),
          u8 := img.u8 }
  else .error .badChannels

/-- Model of `cv2.threshold(gray, 127, 255, cv2.THRESH_BINARY)` (second
component of the returned pair): per element, strictly greater than 127
becomes 255 and everything else becomes 0; shape and dtype are kept.
OpenCV's threshold places no emptiness restriction on its input: an
empty array yields an empty array. -/
def thresholdBinary127 (img : Image) : Image :=
  { shape := img.shape,
    px := fun i j k => if 127 < img.px i j k then 255 else 0,
    u8 := img.u8 }

/-- `ImageProcessor.convert_to_binary`: 3-D images go through
`cv2.cvtColor(..., COLOR_BGR2GRAY)` first (`len(img.shape) == 3`), 2-D
images are copied unchanged; then the fixed 127 threshold is applied. -/
def convert_to_binary (img : Image) : Except CvErr Image := do
  let gray ← if img.shape.length = 3 then cvtColor_BGR2GRAY img
    else .ok img
  .ok (thresholdBinary127 gray)

/-- Shared model of `cv2.bitwise_and` / `cv2.bitwise_or` with the
per-element function abstracted: OpenCV requires both arrays to have
identical size and type and applies the operation per element. -/
def bitwiseCombine (f : Nat → Nat → Nat) (a b : Image) :
    Except CvErr Image :=
  if a.shape = b.shape ∧ a.u8 = b.u8 then
    .ok { shape := a.shape,
          px := fun i j k => f (a.px i j k) (b.px i j k),
          u8 := a.u8 }
  else .error .sizeMismatch

/-- `cv2.bitwise_and`: per-element bitwise AND. -/
def cv2_bitwise_and (a b : Image) : Except CvErr Image :=
  bitwiseCombine Nat.land a b

/-- `cv2.bitwise_or`: per-element bitwise OR. -/
def cv2_bitwise_or (a b : Image) : Except CvErr Image :=
  bitwiseCombine Nat.lor a b

/-- `ImageProcessor.logical_and`: match sizes, optimize memory, binarize
both, bitwise AND. -/
def logical_and (img1 img2 : Image) : Except CvErr Image := do
  let (rimg1, rimg2) ← resize_to_match img1 img2
  let oimg1 ← optimize_memory_usage rimg1
  let oimg2 ← optimize_memory_usage rimg2
  let binary1 ← convert_to_binary oimg1
  let binary2 ← convert_to_binary oimg2
  cv2_bitwise_and binary1 binary2

/-- `ImageProcessor.union_operation`: match sizes, optimize memory,
binarize both, bitwise OR. -/
def union_operation (img1 img2 : Image) : Except CvErr Image := do
  let (rimg1, rimg2) ← resize_to_match img1 img2
  let oimg1 ← optimize_memory_usage rimg1
  let oimg2 ← optimize_memory_usage rimg2
  let binary1 ← convert_to_binary oimg1
  let binary2 ← convert_to_binary oimg2
  cv2_bitwise_or binary1 binary2

/-- The common pipeline of `logical_and` and `union_operation` with the
final per-element operation abstracted; both operations are
definitionally instances of it (see `logical_and_eq_combineWith`). -/
def combineWith (f : Nat → Nat → Nat) (img1 img2 : Image) :
    Except CvErr Image := do
  let (rimg1, rimg2) ← resize_to_match img1 img2
  let oimg1 ← optimize_memory_usage rimg1
  let oimg2 ← optimize_memory_usage rimg2
  let binary1 ← convert_to_binary oimg1
  let binary2 ← convert_to_binary oimg2
  bitwiseCombine f binary1 binary2

/-- The dictionary built by `ImageProcessor.get_image_info` (the string
`dtype` field is modelled by the uint8 flag). -/
structure ImageInfo where
  height : Nat
  width : Nat
  channels : Nat
  dtypeU8 : Bool
  size : Nat
deriving DecidableEq

/-- `ImageProcessor.get_image_info`: height and width are `shape[0]`
and `shape[1]`; the channels entry is the source expression
`len(img.shape) if len(img.shape) == 2 else img.shape[2]`; size is the
total number of elements (`img.size`, the product of the shape). -/
def get_image_info (img : Image) : ImageInfo :=
  { height := img.shape.getD 0 0,
    width := img.shape.getD 1 0,
    channels := if img.shape.length = 2 then img.shape.length
      else img.shape.getD 2 0,
    dtypeU8 := img.u8,
    size := img.shape.foldr (· * ·) 1 }

/-- The target dimensions `resize_to_match` reconciles to:
componentwise minimum (equal shapes are their own minimum). -/
def targetDims (a b : Image) : Nat × Nat :=
  (min a.height b.height, min a.width b.width)

/-- The dimensions `resize_if_needed` produces from given dimensions. -/
def clampDims (p : Nat × Nat) : Nat × Nat :=
  if max_dimension < p.1 ∨ max_dimension < p.2 then
    (p.1 * max_dimension / max p.1 p.2,
      p.2 * max_dimension / max p.1 p.2)
  else p

/-- Dimensions of the result of a combine call on valid inputs:
reconcile to the minimum footprint, then clamp to the size ceiling. -/
def finalDims (a b : Image) : Nat × Nat := clampDims (targetDims a b)

/-- The pixel function `optimize_memory_usage` produces from a valid
input (clamp to the ceiling when a dimension exceeds it, then cast
non-uint8 data modulo 256). -/
def postPx (img : Image) (i j k : Nat) : Nat :=
  if img.u8 = true then
    (if max_dimension < img.height ∨ max_dimension < img.width then
      areaAvgPx img (clampDims (img.height, img.width)).1
        (clampDims (img.height, img.width)).2 i j k
    else img.px i j k)
  else
    (if max_dimension < img.height ∨ max_dimension < img.width then
      areaAvgPx img (clampDims (img.height, img.width)).1
        (clampDims (img.height, img.width)).2 i j k
    else img.px i j k) % 256

/-- The grayscale value `convert_to_binary` thresholds: luma conversion
for a 3-D image, the raw element for a 2-D one. -/
def grayPoint (img : Image) (i j k : Nat) : Nat :=
  if img.shape.length = 3 then
    bgr2grayPx (img.px i j 0) (img.px i j 1) (img.px i j 2)
  else img.px i j k

/-- Observation: did the call produce a buffer. -/
def okB : Except CvErr Image → Bool
  | .ok _ => true
  | .error _ => false

/-- Observation: shape of the produced buffer ([] on error). -/
def okShape : Except CvErr Image → List Nat
  | .ok r => r.shape
  | .error _ => []

/-- Observation: pixels of the produced buffer (0 on error). -/
def okPx : Except CvErr Image → Nat → Nat → Nat → Nat
  | .ok r, i, j, k => r.px i j k
  | .error _, _, _, _ => 0

/-- Observation: uint8 flag of the produced buffer (false on error). -/
def okU8 : Except CvErr Image → Bool
  | .ok r => r.u8
  | .error _ => false

/-- Concrete buffer: the empty 0 by 0 grayscale array of the design
document's empty-buffer scenario. -/
def emptyG : Image := ⟨[0, 0], fun _ _ _ => 0, true⟩

/-- Concrete buffer: a 1 by 1 4-channel array (unsupported channel
count according to the design document). -/
def quad11 : Image := ⟨[1, 1, 4], fun _ _ _ => 200, true⟩

/-- Concrete buffer: 1 by 5000 white grayscale row. -/
def thin1 : Image := ⟨[1, 5000], fun _ _ _ => 255, true⟩

/-- Concrete buffer: 2 by 5000 white grayscale strip. -/
def thin2 : Image := ⟨[2, 5000], fun _ _ _ => 255, true⟩

/-- Concrete buffer: 2 by 3 grayscale gradient. -/
def gray23 : Image := ⟨[2, 3], fun i j _ => i + j, true⟩

/-- Concrete buffer: 2 by 3 three-channel array. -/
def color23 : Image := ⟨[2, 3, 3], fun i j k => 90 + i + j + k, true⟩

/-- Concrete buffer: 1 by 1 grayscale, value 200. -/
def wit1 : Image := ⟨[1, 1], fun _ _ _ => 200, true⟩

/-- Concrete buffer: 1 by 1 grayscale, value 100. -/
def wit2 : Image := ⟨[1, 1], fun _ _ _ => 100, true⟩

/-- Concrete buffer: 4 by 4 all-white grayscale. -/
def white44 : Image := ⟨[4, 4], fun _ _ _ => 255, true⟩

/-- Concrete buffer: 4 by 4 all-black grayscale. -/
def zero44 : Image := ⟨[4, 4], fun _ _ _ => 0, true⟩

/-- Concrete buffer: 2 by 2 all-black grayscale. -/
def black22 : Image := ⟨[2, 2], fun _ _ _ => 0, true⟩

/-- Concrete buffer: 2 by 2 all-white grayscale (binary). -/
def bin22 : Image := ⟨[2, 2], fun _ _ _ => 255, true⟩

/-- Concrete buffer: 2 by 2 grayscale with values 0, 100, 200, 300. -/
def mix22 : Image := ⟨[2, 2], fun i j _ => (i + 2 * j) * 100, true⟩

/-- Concrete buffer: 1 by 1 BGR pixel (blue 10, green 200, red 30). -/
def bgr11 : Image :=
  ⟨[1, 1, 3], fun _ _ k => if k = 0 then 10 else if k = 1 then 200
    else 30, true⟩

/-- Concrete buffer: 1 by 2 non-uint8 array with elements 300 and
256. -/
def nonU8 : Image :=
  ⟨[1, 2], fun _ j _ => if j = 0 then 300 else 256, false⟩

@[simp] theorem ok_bind {α β : Type} (x : α) (f : α → Except CvErr β) :
    (Except.ok x >>= f) = f x := rfl

@[simp] theorem err_bind {α β : Type} (e : CvErr)
    (f : α → Except CvErr β) :
    ((Except.error e : Except CvErr α) >>= f) = Except.error e := rfl

theorem resize_block_pos (x h t : Nat) (ht : 0 < t) (hth : t ≤ h) :
    x * h / t < (x + 1) * h / t := by
  have h1 : x * h / t + 1 = (x * h + t) / t := (Nat.add_div_right _ ht).symm
  have h2 : x * h + t ≤ (x + 1) * h := by
    have : (x + 1) * h = x * h + h := by ring
    omega
  have h3 : (x * h + t) / t ≤ (x + 1) * h / t := Nat.div_le_div_right h2
  omega

theorem areaAvgPx_zero (img : Image) (th tw i j k : Nat)
    (hc : ∀ r c, img.px r c k = 0) : areaAvgPx img th tw i j k = 0 := by
  unfold areaAvgPx
  simp [hc]

theorem areaAvgPx_const (img : Image) (v th tw i j k : Nat)
    (hth : 0 < th) (htw : 0 < tw)
    (hh : th ≤ img.height) (hw : tw ≤ img.width)
    (hc : ∀ r c, img.px r c k = v) :
    areaAvgPx img th tw i j k = v := by
  unfold areaAvgPx
  have hr : i * img.height / th < (i + 1) * img.height / th :=
    resize_block_pos i img.height th hth hh
  have hcc : j * img.width / tw < (j + 1) * img.width / tw :=
    resize_block_pos j img.width tw htw hw
  set n1 := (i + 1) * img.height / th - i * img.height / th with hn1
  set n2 := (j + 1) * img.width / tw - j * img.width / tw with hn2
  have hn1p : 0 < n1 := by omega
  have hn2p : 0 < n2 := by omega
  have hsum : (∑ r ∈ Finset.range n1, ∑ c ∈ Finset.range n2,
      img.px (i * img.height / th + r) (j * img.width / tw + c) k)
      = n1 * n2 * v := by
    have hinner : ∀ r, (∑ c ∈ Finset.range n2,
        img.px (i * img.height / th + r) (j * img.width / tw + c) k)
        = n2 * v := by
      intro r
      rw [Finset.sum_congr rfl (fun c _ => hc _ _)]
      simp [Finset.sum_const, Nat.mul_comm]
    rw [Finset.sum_congr rfl (fun r _ => hinner r)]
    simp only [Finset.sum_const, Finset.card_range, smul_eq_mul]
    ring
  rw [hsum, Nat.mul_div_cancel_left v (Nat.mul_pos hn1p hn2p)]

theorem resizeCv_ok (img : Image) (tw th : Nat)
    (h1 : 0 < img.height) (h2 : 0 < img.width)
    (h3 : 0 < th) (h4 : 0 < tw) :
    resizeCv img tw th =
      .ok { shape := [th, tw] ++ img.shape.drop 2,
            px := areaAvgPx img th tw, u8 := img.u8 } := by
  unfold resizeCv
  rw [if_neg (by omega), if_neg (by omega)]

theorem resizeCv_err (img : Image) (tw th : Nat)
    (h1 : 0 < img.height) (h2 : 0 < img.width)
    (h3 : th = 0 ∨ tw = 0) :
    resizeCv img tw th = .error .badTargetSize := by
  unfold resizeCv
  rw [if_neg (by omega), if_pos h3]

theorem valid_shape_eta (img : Image) (hv : Valid img) :
    img.shape = [img.height, img.width] ++ img.shape.drop 2 := by
  rcases hv.2.2 with h | h <;> rw [h] <;> rfl

/-- `resize_to_match` on valid inputs: always succeeds, both outputs
have the reconciled minimum dimensions, channel structure and dtype are
preserved, and the pixels are either untouched (equal input sizes) or
area averages. -/
theorem rtm_spec (a b : Image) (ha : Valid a) (hb : Valid b) :
    ∃ a' b', resize_to_match a b = .ok (a', b') ∧
      a'.height = (targetDims a b).1 ∧ a'.width = (targetDims a b).2 ∧
      b'.height = (targetDims a b).1 ∧ b'.width = (targetDims a b).2 ∧
      a'.shape = [(targetDims a b).1, (targetDims a b).2] ++
        a.shape.drop 2 ∧
      b'.shape = [(targetDims a b).1, (targetDims a b).2] ++
        b.shape.drop 2 ∧
      a'.u8 = a.u8 ∧ b'.u8 = b.u8 ∧
      (∀ i j k, a'.px i j k =
        if a.height = b.height ∧ a.width = b.width then a.px i j k
        else areaAvgPx a (targetDims a b).1 (targetDims a b).2 i j k) ∧
      (∀ i j k, b'.px i j k =
        if a.height = b.height ∧ a.width = b.width then b.px i j k
        else areaAvgPx b (targetDims a b).1 (targetDims a b).2 i j k) := by
  by_cases hc : a.height = b.height ∧ a.width = b.width
  · refine ⟨a, b, ?_, ?_, ?_, ?_, ?_, ?_, ?_, rfl, rfl, ?_, ?_⟩
    · unfold resize_to_match; rw [if_pos hc]
    · simp [targetDims, hc.1]
    · simp [targetDims, hc.2]
    · simp [targetDims, hc.1]
    · simp [targetDims, hc.2]
    · have := valid_shape_eta a ha
      rw [this]; simp [targetDims, hc.1, hc.2]
    · have := valid_shape_eta b hb
      rw [this]; simp [targetDims, hc.1, hc.2]
    · intro i j k; rw [if_pos hc]
    · intro i j k; rw [if_pos hc]
  · have hth : 0 < min a.height b.height :=
      Nat.lt_min.mpr ⟨ha.1, hb.1⟩
    have htw : 0 < min a.width b.width :=
      Nat.lt_min.mpr ⟨ha.2.1, hb.2.1⟩
    have hra := resizeCv_ok a (min a.width b.width)
      (min a.height b.height) ha.1 ha.2.1 hth htw
    have hrb := resizeCv_ok b (min a.width b.width)
      (min a.height b.height) hb.1 hb.2.1 hth htw
    refine ⟨⟨[min a.height b.height, min a.width b.width] ++
        a.shape.drop 2,
        areaAvgPx a (min a.height b.height) (min a.width b.width),
        a.u8⟩,
      ⟨[min a.height b.height, min a.width b.width] ++ b.shape.drop 2,
        areaAvgPx b (min a.height b.height) (min a.width b.width),
        b.u8⟩,
      ?_, rfl, rfl, rfl, rfl, rfl, rfl, rfl, rfl, ?_, ?_⟩
    · unfold resize_to_match
      rw [if_neg hc]
      rw [hra, ok_bind, hrb, ok_bind]
    · intro i j k; rw [if_neg hc]; rfl
    · intro i j k; rw [if_neg hc]; rfl

theorem clampDims_eq_self (h w : Nat)
    (hs : ¬(max_dimension < h ∨ max_dimension < w)) :
    clampDims (h, w) = (h, w) := by
  unfold clampDims; rw [if_neg hs]

theorem clampDims_eq_clamp (h w : Nat)
    (hs : max_dimension < h ∨ max_dimension < w) :
    clampDims (h, w) = (h * max_dimension / max h w,
      w * max_dimension / max h w) := by
  unfold clampDims; rw [if_pos hs]

theorem clampDims_le (h w : Nat) :
    (clampDims (h, w)).1 ≤ h ∧ (clampDims (h, w)).1 ≤ max_dimension ∧
      (clampDims (h, w)).2 ≤ w ∧
      (clampDims (h, w)).2 ≤ max_dimension := by
  by_cases hbig : max_dimension < h ∨ max_dimension < w
  · rw [clampDims_eq_clamp h w hbig]
    have hm : max_dimension < max h w := by
      rcases hbig with h1 | h1
      · exact lt_of_lt_of_le h1 (le_max_left _ _)
      · exact lt_of_lt_of_le h1 (le_max_right _ _)
    have hmpos : 0 < max h w := by
      have : 0 < max_dimension := by decide
      omega
    have hle : ∀ x, x ≤ max h w →
        x * max_dimension / max h w ≤ max_dimension := by
      intro x hx
      calc x * max_dimension / max h w
          ≤ max h w * max_dimension / max h w :=
            Nat.div_le_div_right (Nat.mul_le_mul_right _ hx)
        _ = max_dimension := Nat.mul_div_cancel_left _ hmpos
    have hlex : ∀ x, x * max_dimension / max h w ≤ x := by
      intro x
      calc x * max_dimension / max h w ≤ x * max h w / max h w :=
            Nat.div_le_div_right (Nat.mul_le_mul_left _ (le_of_lt hm))
        _ = x := Nat.mul_div_cancel _ hmpos
    exact ⟨hlex h, hle h (le_max_left _ _), hlex w,
      hle w (le_max_right _ _)⟩
  · rw [clampDims_eq_self h w hbig]
    constructor
    · exact le_refl h
    constructor
    · omega
    constructor
    · exact le_refl w
    · omega

/-- `optimize_memory_usage` on a valid buffer whose clamped dimensions
are positive: succeeds, produces the clamped dimensions, keeps the
channel structure, forces uint8, and its pixels are `postPx`. -/
theorem opt_spec_ok (img : Image) (hv : Valid img)
    (hp : 0 < (clampDims (img.height, img.width)).1)
    (hq : 0 < (clampDims (img.height, img.width)).2) :
    ∃ r, optimize_memory_usage img = .ok r ∧
      r.height = (clampDims (img.height, img.width)).1 ∧
      r.width = (clampDims (img.height, img.width)).2 ∧
      r.shape = [(clampDims (img.height, img.width)).1,
        (clampDims (img.height, img.width)).2] ++ img.shape.drop 2 ∧
      r.u8 = true ∧ Valid r ∧
      (∀ i j k, r.px i j k = postPx img i j k) := by
  by_cases hbig : max_dimension < img.height ∨ max_dimension < img.width
  · have hcd := clampDims_eq_clamp img.height img.width hbig
    rw [hcd] at hp hq ⊢
    have hres := resizeCv_ok img
      (img.width * max_dimension / max img.height img.width)
      (img.height * max_dimension / max img.height img.width)
      hv.1 hv.2.1 hp hq
    have hrif : resize_if_needed img = resizeCv img
        (img.width * max_dimension / max img.height img.width)
        (img.height * max_dimension / max img.height img.width) := by
      unfold resize_if_needed; rw [if_pos hbig]
    have hdrop : img.shape.drop 2 = [] ∨ img.shape.drop 2 = [3] := by
      rcases hv.2.2 with hs | hs <;> rw [hs]
      · left; rfl
      · right; rfl
    cases hu : img.u8 with
    | true =>
      refine ⟨⟨[img.height * max_dimension / max img.height img.width,
          img.width * max_dimension / max img.height img.width] ++
          img.shape.drop 2,
        areaAvgPx img
          (img.height * max_dimension / max img.height img.width)
          (img.width * max_dimension / max img.height img.width),
        img.u8⟩, ?_, rfl, rfl, rfl, hu, ?_, ?_⟩
      · unfold optimize_memory_usage
        rw [hrif, hres, ok_bind]
        simp [hu]
      · refine ⟨hp, hq, ?_⟩
        rcases hdrop with hd | hd <;> rw [hd]
        · left; rfl
        · right; rfl
      · intro i j k
        simp [postPx, hu, hbig, hcd]
    | false =>
      refine ⟨⟨[img.height * max_dimension / max img.height img.width,
          img.width * max_dimension / max img.height img.width] ++
          img.shape.drop 2,
        fun i j k => areaAvgPx img
          (img.height * max_dimension / max img.height img.width)
          (img.width * max_dimension / max img.height img.width)
          i j k % 256,
        true⟩, ?_, rfl, rfl, rfl, rfl, ?_, ?_⟩
      · unfold optimize_memory_usage
        rw [hrif, hres, ok_bind]
        simp [hu]
      · refine ⟨hp, hq, ?_⟩
        rcases hdrop with hd | hd <;> rw [hd]
        · left; rfl
        · right; rfl
      · intro i j k
        simp [postPx, hu, hbig, hcd]
  · have hcd := clampDims_eq_self img.height img.width hbig
    rw [hcd] at hp hq ⊢
    have hrif : resize_if_needed img = .ok img := by
      unfold resize_if_needed; rw [if_neg hbig]
    cases hu : img.u8 with
    | true =>
      refine ⟨img, ?_, rfl, rfl, valid_shape_eta img hv, hu, hv, ?_⟩
      · unfold optimize_memory_usage
        rw [hrif, ok_bind]
        simp [hu]
      · intro i j k
        simp [postPx, hu, hbig]
    | false =>
      refine ⟨⟨img.shape, fun i j k => img.px i j k % 256, true⟩,
        ?_, rfl, rfl, ?_, rfl, ?_, ?_⟩
      · unfold optimize_memory_usage
        rw [hrif, ok_bind]
        simp [hu]
      · exact valid_shape_eta img hv
      · exact hv
      · intro i j k
        simp [postPx, hu, hbig]

/-- `optimize_memory_usage` fails with the resize error when the 2048
clamp computes a zero dimension (extreme aspect ratios). -/
theorem opt_spec_err (img : Image) (hv : Valid img)
    (hne : ¬(0 < (clampDims (img.height, img.width)).1 ∧
      0 < (clampDims (img.height, img.width)).2)) :
    optimize_memory_usage img = .error .badTargetSize := by
  by_cases hbig : max_dimension < img.height ∨ max_dimension < img.width
  · have hcd := clampDims_eq_clamp img.height img.width hbig
    rw [hcd] at hne
    have hz : img.height * max_dimension / max img.height img.width = 0 ∨
        img.width * max_dimension / max img.height img.width = 0 := by
      by_contra hcon
      push_neg at hcon
      exact hne ⟨Nat.pos_of_ne_zero hcon.1, Nat.pos_of_ne_zero hcon.2⟩
    have hres := resizeCv_err img
      (img.width * max_dimension / max img.height img.width)
      (img.height * max_dimension / max img.height img.width)
      hv.1 hv.2.1 hz
    unfold optimize_memory_usage resize_if_needed
    rw [if_pos hbig, hres, err_bind]
  · have hcd := clampDims_eq_self img.height img.width hbig
    rw [hcd] at hne
    exact absurd ⟨hv.1, hv.2.1⟩ hne

/-- `convert_to_binary` on a valid buffer: succeeds, the result is the
2-D thresholded grayscale of the input, dtype preserved. -/
theorem cvt_spec (img : Image) (hv : Valid img) :
    ∃ r, convert_to_binary img = .ok r ∧
      r.shape = [img.height, img.width] ∧ r.u8 = img.u8 ∧
      (∀ i j k, r.px i j k =
        if 127 < grayPoint img i j k then 255 else 0) := by
  rcases hv.2.2 with hs | hs
  · have hlen : ¬(img.shape.length = 3) := by rw [hs]; simp
    refine ⟨thresholdBinary127 img, ?_, hs, rfl, ?_⟩
    · unfold convert_to_binary
      rw [if_neg hlen, ok_bind]
    · intro i j k
      show (if 127 < img.px i j k then 255 else 0) = _
      unfold grayPoint
      rw [if_neg hlen]
  · have hlen : img.shape.length = 3 := by rw [hs]; rfl
    have hch : img.shape.getD 2 0 = 3 ∨ img.shape.getD 2 0 = 4 := by
      rw [hs]; left; rfl
    have hcvt : cvtColor_BGR2GRAY img =
        .ok { shape := [img.height, img.width],
              px := fun i j _ => bgr2grayPx (img.px i j 0) (img.px i j 1)
                (img.px i j 2),
              u8 := img.u8 } := by
      unfold cvtColor_BGR2GRAY
      rw [if_neg (by have := hv.1; have := hv.2.1; omega), if_pos hch]
    refine ⟨⟨[img.height, img.width],
      fun i j k => if 127 < bgr2grayPx (img.px i j 0) (img.px i j 1)
        (img.px i j 2) then 255 else 0,
      img.u8⟩, ?_, rfl, rfl, ?_⟩
    · unfold convert_to_binary
      rw [if_pos hlen, hcvt, ok_bind]
      rfl
    · intro i j k
      show (if 127 < bgr2grayPx (img.px i j 0) (img.px i j 1)
        (img.px i j 2) then 255 else 0) = _
      unfold grayPoint
      rw [if_pos hlen]

theorem logical_and_eq_combineWith (a b : Image) :
    logical_and a b = combineWith Nat.land a b := rfl

theorem union_eq_combineWith (a b : Image) :
    union_operation a b = combineWith Nat.lor a b := rfl

theorem valid_drop (img : Image) (hv : Valid img) :
    img.shape.drop 2 = [] ∨ img.shape.drop 2 = [3] := by
  rcases hv.2.2 with hs | hs <;> rw [hs]
  · left; rfl
  · right; rfl

theorem valid_of_shape (img : Image) (h w : Nat) (rest : List Nat)
    (hsh : img.shape = [h, w] ++ rest) (hrest : rest = [] ∨ rest = [3])
    (hh : 0 < h) (hw : 0 < w) : Valid img := by
  have hH : img.height = h := by
    show img.shape.getD 0 0 = h
    rw [hsh]; rfl
  have hW : img.width = w := by
    show img.shape.getD 1 0 = w
    rw [hsh]; rfl
  refine ⟨hH ▸ hh, hW ▸ hw, ?_⟩
  rcases hrest with hr | hr <;> rw [hsh, hr, hH, hW]
  · left; rfl
  · right; rfl

/-- The shared combine pipeline on valid inputs whose clamped reconciled
dimensions are positive: succeeds, and the result is a single-channel
uint8 buffer of the reconciled dimensions whose elements are the
per-element operation applied to two thresholded (0 or 255) values. -/
theorem combineWith_spec (f : Nat → Nat → Nat) (a b : Image)
    (ha : Valid a) (hb : Valid b)
    (hp : 0 < (finalDims a b).1) (hq : 0 < (finalDims a b).2) :
    ∃ r, combineWith f a b = .ok r ∧
      r.shape = [(finalDims a b).1, (finalDims a b).2] ∧
      r.u8 = true ∧
      (∀ i j k, ∃ x y, (x = 0 ∨ x = 255) ∧ (y = 0 ∨ y = 255) ∧
        r.px i j k = f x y) := by
  obtain ⟨a', b', hrtm, ha'h, ha'w, hb'h, hb'w, ha'sh, hb'sh, ha'u8,
    hb'u8, _, _⟩ := rtm_spec a b ha hb
  have ht1 : 0 < (targetDims a b).1 := Nat.lt_min.mpr ⟨ha.1, hb.1⟩
  have ht2 : 0 < (targetDims a b).2 := Nat.lt_min.mpr ⟨ha.2.1, hb.2.1⟩
  have hva' : Valid a' :=
    valid_of_shape a' _ _ _ ha'sh (valid_drop a ha) ht1 ht2
  have hvb' : Valid b' :=
    valid_of_shape b' _ _ _ hb'sh (valid_drop b hb) ht1 ht2
  have hcda : clampDims (a'.height, a'.width) = finalDims a b := by
    rw [ha'h, ha'w]; rfl
  have hcdb : clampDims (b'.height, b'.width) = finalDims a b := by
    rw [hb'h, hb'w]; rfl
  obtain ⟨ra, hopta, hrah, hraw, hrash, hrau8, hvra, _⟩ :=
    opt_spec_ok a' hva' (by rw [hcda]; exact hp)
      (by rw [hcda]; exact hq)
  obtain ⟨rb, hoptb, hrbh, hrbw, hrbsh, hrbu8, hvrb, _⟩ :=
    opt_spec_ok b' hvb' (by rw [hcdb]; exact hp)
      (by rw [hcdb]; exact hq)
  rw [hcda] at hrah hraw
  rw [hcdb] at hrbh hrbw
  obtain ⟨ua, hcvta, huash, huau8, huapx⟩ := cvt_spec ra hvra
  obtain ⟨ub, hcvtb, hubsh, hubu8, hubpx⟩ := cvt_spec rb hvrb
  have hsh : ua.shape = ub.shape := by
    rw [huash, hubsh, hrah, hraw, hrbh, hrbw]
  have hu8 : ua.u8 = ub.u8 := by
    rw [huau8, hubu8, hrau8, hrbu8]
  have hbc : bitwiseCombine f ua ub =
      .ok ⟨ua.shape, fun i j k => f (ua.px i j k) (ub.px i j k),
        ua.u8⟩ := by
    unfold bitwiseCombine
    rw [if_pos ⟨hsh, hu8⟩]
  refine ⟨⟨ua.shape, fun i j k => f (ua.px i j k) (ub.px i j k),
    ua.u8⟩, ?_, ?_, ?_, ?_⟩
  · simp only [combineWith, hrtm, ok_bind, hopta, hoptb, hcvta, hcvtb,
      hbc]
  · show ua.shape = _
    rw [huash, hrah, hraw]
  · show ua.u8 = true
    rw [huau8, hrau8]
  · intro i j k
    refine ⟨ua.px i j k, ub.px i j k, ?_, ?_, rfl⟩
    · rw [huapx i j k]
      split
      · right; rfl
      · left; rfl
    · rw [hubpx i j k]
      split
      · right; rfl
      · left; rfl

/-- The shared combine pipeline fails (resize error from the 2048
clamp) exactly when the clamped reconciled dimensions degenerate. -/
theorem combineWith_err (f : Nat → Nat → Nat) (a b : Image)
    (ha : Valid a) (hb : Valid b)
    (hne : ¬(0 < (finalDims a b).1 ∧ 0 < (finalDims a b).2)) :
    combineWith f a b = .error .badTargetSize := by
  obtain ⟨a', b', hrtm, ha'h, ha'w, hb'h, hb'w, ha'sh, hb'sh, ha'u8,
    hb'u8, _, _⟩ := rtm_spec a b ha hb
  have ht1 : 0 < (targetDims a b).1 := Nat.lt_min.mpr ⟨ha.1, hb.1⟩
  have ht2 : 0 < (targetDims a b).2 := Nat.lt_min.mpr ⟨ha.2.1, hb.2.1⟩
  have hva' : Valid a' :=
    valid_of_shape a' _ _ _ ha'sh (valid_drop a ha) ht1 ht2
  have hcda : clampDims (a'.height, a'.width) = finalDims a b := by
    rw [ha'h, ha'w]; rfl
  have hopt := opt_spec_err a' hva' (by rw [hcda]; exact hne)
  simp only [combineWith, hrtm, ok_bind, hopt, err_bind]

theorem bgr2grayPx_zero : bgr2grayPx 0 0 0 = 0 := by decide

theorem bgr2grayPx_white : bgr2grayPx 255 255 255 = 255 := by decide

/-- A constant all-0 or all-255 buffer stays constant through
`optimize_memory_usage` (area averaging of a constant is that constant,
and 0 and 255 are fixed by the modulo-256 cast). -/
theorem postPx_const (img : Image) (v : Nat) (hv : v = 0 ∨ v = 255)
    (hp : 0 < (clampDims (img.height, img.width)).1)
    (hq : 0 < (clampDims (img.height, img.width)).2)
    (hc : ∀ i j k, img.px i j k = v) :
    ∀ i j k, postPx img i j k = v := by
  intro i j k
  have hbase : (if max_dimension < img.height ∨ max_dimension < img.width
      then areaAvgPx img (clampDims (img.height, img.width)).1
        (clampDims (img.height, img.width)).2 i j k
      else img.px i j k) = v := by
    by_cases hbig : max_dimension < img.height ∨ max_dimension < img.width
    · rw [if_pos hbig]
      rcases hv with rfl | rfl
      · exact areaAvgPx_zero img _ _ i j k (fun r c => hc r c k)
      · exact areaAvgPx_const img 255 _ _ i j k hp hq
          (clampDims_le img.height img.width).1
          (clampDims_le img.height img.width).2.2.1
          (fun r c => hc r c k)
    · rw [if_neg hbig]
      exact hc i j k
  unfold postPx
  by_cases hu : img.u8 = true
  · rw [if_pos hu]; exact hbase
  · rw [if_neg hu, hbase]
    rcases hv with rfl | rfl <;> decide

/-- The combine pipeline with a constant all-0 or all-255 first operand
whose thresholded value absorbs the second operand. -/
theorem combineWith_const_left (f : Nat → Nat → Nat) (v : Nat)
    (hv : v = 0 ∨ v = 255) (a b : Image)
    (ha : Valid a) (hb : Valid b)
    (hconst : ∀ i j k, a.px i j k = v)
    (habs : ∀ y, (y = 0 ∨ y = 255) →
      f (if 127 < v then 255 else 0) y = if 127 < v then 255 else 0)
    (hp : 0 < (finalDims a b).1) (hq : 0 < (finalDims a b).2) :
    okShape (combineWith f a b) =
      [(finalDims a b).1, (finalDims a b).2] ∧
    ∀ i j k, okPx (combineWith f a b) i j k =
      if 127 < v then 255 else 0 := by
  obtain ⟨a', b', hrtm, ha'h, ha'w, hb'h, hb'w, ha'sh, hb'sh, ha'u8,
    hb'u8, ha'px, _⟩ := rtm_spec a b ha hb
  have ht1 : 0 < (targetDims a b).1 := Nat.lt_min.mpr ⟨ha.1, hb.1⟩
  have ht2 : 0 < (targetDims a b).2 := Nat.lt_min.mpr ⟨ha.2.1, hb.2.1⟩
  have hva' : Valid a' :=
    valid_of_shape a' _ _ _ ha'sh (valid_drop a ha) ht1 ht2
  have hvb' : Valid b' :=
    valid_of_shape b' _ _ _ hb'sh (valid_drop b hb) ht1 ht2
  have hconsta' : ∀ i j k, a'.px i j k = v := by
    intro i j k
    rw [ha'px i j k]
    by_cases hc : a.height = b.height ∧ a.width = b.width
    · rw [if_pos hc]; exact hconst i j k
    · rw [if_neg hc]
      rcases hv with rfl | rfl
      · exact areaAvgPx_zero a _ _ i j k (fun r c => hconst r c k)
      · exact areaAvgPx_const a 255 _ _ i j k ht1 ht2
          (Nat.min_le_left _ _) (Nat.min_le_left _ _)
          (fun r c => hconst r c k)
  have hcda : clampDims (a'.height, a'.width) = finalDims a b := by
    rw [ha'h, ha'w]; rfl
  have hcdb : clampDims (b'.height, b'.width) = finalDims a b := by
    rw [hb'h, hb'w]; rfl
  obtain ⟨ra, hopta, hrah, hraw, hrash, hrau8, hvra, hrapx⟩ :=
    opt_spec_ok a' hva' (by rw [hcda]; exact hp)
      (by rw [hcda]; exact hq)
  obtain ⟨rb, hoptb, hrbh, hrbw, hrbsh, hrbu8, hvrb, _⟩ :=
    opt_spec_ok b' hvb' (by rw [hcdb]; exact hp)
      (by rw [hcdb]; exact hq)
  rw [hcda] at hrah hraw
  rw [hcdb] at hrbh hrbw
  have hracst : ∀ i j k, ra.px i j k = v := by
    intro i j k
    rw [hrapx i j k]
    exact postPx_const a' v hv (by rw [hcda]; exact hp)
      (by rw [hcda]; exact hq) hconsta' i j k
  obtain ⟨ua, hcvta, huash, huau8, huapx⟩ := cvt_spec ra hvra
  obtain ⟨ub, hcvtb, hubsh, hubu8, hubpx⟩ := cvt_spec rb hvrb
  have hgray : ∀ i j k, grayPoint ra i j k = v := by
    intro i j k
    unfold grayPoint
    split
    · rw [hracst i j 0, hracst i j 1, hracst i j 2]
      rcases hv with rfl | rfl
      · exact bgr2grayPx_zero
      · exact bgr2grayPx_white
    · exact hracst i j k
  have huacst : ∀ i j k, ua.px i j k = if 127 < v then 255 else 0 := by
    intro i j k
    rw [huapx i j k, hgray i j k]
  have hsh : ua.shape = ub.shape := by
    rw [huash, hubsh, hrah, hraw, hrbh, hrbw]
  have hu8 : ua.u8 = ub.u8 := by
    rw [huau8, hubu8, hrau8, hrbu8]
  have hbc : bitwiseCombine f ua ub =
      .ok ⟨ua.shape, fun i j k => f (ua.px i j k) (ub.px i j k),
        ua.u8⟩ := by
    unfold bitwiseCombine
    rw [if_pos ⟨hsh, hu8⟩]
  have hcw : combineWith f a b =
      .ok ⟨ua.shape, fun i j k => f (ua.px i j k) (ub.px i j k),
        ua.u8⟩ := by
    simp only [combineWith, hrtm, ok_bind, hopta, hoptb, hcvta, hcvtb,
      hbc]
  rw [hcw]
  constructor
  · show ua.shape = _
    rw [huash, hrah, hraw]
  · intro i j k
    show f (ua.px i j k) (ub.px i j k) = _
    rw [huacst i j k]
    refine habs (ub.px i j k) ?_
    rw [hubpx i j k]
    split
    · right; rfl
    · left; rfl

/-- The combine pipeline is symmetric in its two inputs whenever they
already share their dimensions and the per-element operation is
commutative. -/
theorem combineWith_comm (f : Nat → Nat → Nat)
    (hf : ∀ x y, f x y = f y x) (a b : Image)
    (ha : Valid a) (hb : Valid b)
    (hhh : a.height = b.height) (hww : a.width = b.width) :
    combineWith f a b = combineWith f b a := by
  have hrtm1 : resize_to_match a b = .ok (a, b) := by
    unfold resize_to_match; rw [if_pos ⟨hhh, hww⟩]
  have hrtm2 : resize_to_match b a = .ok (b, a) := by
    unfold resize_to_match; rw [if_pos ⟨hhh.symm, hww.symm⟩]
  have hcd : clampDims (b.height, b.width) =
      clampDims (a.height, a.width) := by
    rw [hhh, hww]
  by_cases hpos : 0 < (clampDims (a.height, a.width)).1 ∧
      0 < (clampDims (a.height, a.width)).2
  · obtain ⟨ra, hopta, hrah, hraw, _, hrau8, hvra, _⟩ :=
      opt_spec_ok a ha hpos.1 hpos.2
    obtain ⟨rb, hoptb, hrbh, hrbw, _, hrbu8, hvrb, _⟩ :=
      opt_spec_ok b hb (by rw [hcd]; exact hpos.1)
        (by rw [hcd]; exact hpos.2)
    rw [hcd] at hrbh hrbw
    obtain ⟨ua, hcvta, huash, huau8, huapx⟩ := cvt_spec ra hvra
    obtain ⟨ub, hcvtb, hubsh, hubu8, hubpx⟩ := cvt_spec rb hvrb
    have hsh : ua.shape = ub.shape := by
      rw [huash, hubsh, hrah, hraw, hrbh, hrbw]
    have hu8 : ua.u8 = ub.u8 := by
      rw [huau8, hubu8, hrau8, hrbu8]
    have h1 : combineWith f a b = bitwiseCombine f ua ub := by
      simp only [combineWith, hrtm1, ok_bind, hopta, hoptb, hcvta,
        hcvtb]
    have h2 : combineWith f b a = bitwiseCombine f ub ua := by
      simp only [combineWith, hrtm2, ok_bind, hopta, hoptb, hcvta,
        hcvtb]
    rw [h1, h2]
    unfold bitwiseCombine
    rw [if_pos ⟨hsh, hu8⟩, if_pos ⟨hsh.symm, hu8.symm⟩]
    simp only [Except.ok.injEq, Image.mk.injEq]
    refine ⟨hsh, ?_, hu8⟩
    funext i j k
    exact hf _ _
  · have he1 := opt_spec_err a ha hpos
    have he2 := opt_spec_err b hb (by rw [hcd]; exact hpos)
    simp only [combineWith, hrtm1, hrtm2, ok_bind, he1, he2, err_bind]

/-- `optimize_memory_usage` is a no-op up to the uint8 cast on any 2-D
buffer within the size ceiling (empty buffers included). -/
theorem opt_2d_ok (img : Image) (h w : Nat) (hs : img.shape = [h, w])
    (hh : h ≤ max_dimension) (hw : w ≤ max_dimension) :
    ∃ r, optimize_memory_usage img = .ok r ∧ r.shape = [h, w] ∧
      r.u8 = true := by
  have hah : img.height = h := by
    show img.shape.getD 0 0 = h
    rw [hs]; rfl
  have haw : img.width = w := by
    show img.shape.getD 1 0 = w
    rw [hs]; rfl
  have hbig : ¬(max_dimension < img.height ∨
      max_dimension < img.width) := by
    rw [hah, haw]; omega
  have hrif : resize_if_needed img = .ok img := by
    unfold resize_if_needed; rw [if_neg hbig]
  cases hu : img.u8 with
  | true =>
    refine ⟨img, ?_, hs, hu⟩
    unfold optimize_memory_usage
    rw [hrif, ok_bind]
    simp [hu]
  | false =>
    refine ⟨⟨img.shape, fun i j k => img.px i j k % 256, true⟩,
      ?_, hs, rfl⟩
    unfold optimize_memory_usage
    rw [hrif, ok_bind]
    simp [hu]

/-- `convert_to_binary` never fails on a 2-D buffer, empty or not: the
2-D path performs no OpenCV color conversion, only thresholding. -/
theorem cvt_2d_ok (img : Image) (h w : Nat) (hs : img.shape = [h, w]) :
    ∃ r, convert_to_binary img = .ok r ∧ r.shape = [h, w] ∧
      r.u8 = img.u8 := by
  have hlen : ¬(img.shape.length = 3) := by rw [hs]; simp
  refine ⟨thresholdBinary127 img, ?_, hs, rfl⟩
  unfold convert_to_binary
  rw [if_neg hlen, ok_bind]

/-- The combine pipeline succeeds on any pair of equal-shape 2-D
buffers within the size ceiling — no validation rejects them, not even
the empty ones. -/
theorem combineWith_ok_2d (f : Nat → Nat → Nat) (a b : Image)
    (h w : Nat) (hsa : a.shape = [h, w]) (hsb : b.shape = [h, w])
    (hh : h ≤ max_dimension) (hw : w ≤ max_dimension) :
    okB (combineWith f a b) = true := by
  have hah : a.height = h := by
    show a.shape.getD 0 0 = h
    rw [hsa]; rfl
  have haw : a.width = w := by
    show a.shape.getD 1 0 = w
    rw [hsa]; rfl
  have hbh : b.height = h := by
    show b.shape.getD 0 0 = h
    rw [hsb]; rfl
  have hbw : b.width = w := by
    show b.shape.getD 1 0 = w
    rw [hsb]; rfl
  have hrtm : resize_to_match a b = .ok (a, b) := by
    unfold resize_to_match
    rw [if_pos ⟨by rw [hah, hbh], by rw [haw, hbw]⟩]
  obtain ⟨ra, hopta, hrash, hrau8⟩ := opt_2d_ok a h w hsa hh hw
  obtain ⟨rb, hoptb, hrbsh, hrbu8⟩ := opt_2d_ok b h w hsb hh hw
  obtain ⟨ua, hcvta, huash, huau8⟩ := cvt_2d_ok ra h w hrash
  obtain ⟨ub, hcvtb, hubsh, hubu8⟩ := cvt_2d_ok rb h w hrbsh
  have hbc : bitwiseCombine f ua ub =
      .ok ⟨ua.shape, fun i j k => f (ua.px i j k) (ub.px i j k),
        ua.u8⟩ := by
    unfold bitwiseCombine
    rw [if_pos ⟨by rw [huash, hubsh],
      by rw [huau8, hubu8, hrau8, hrbu8]⟩]
  simp only [combineWith, hrtm, ok_bind, hopta, hoptb, hcvta, hcvtb,
    hbc]
  rfl

/-- C1, counterexample: the claim says an empty (0 by 0) buffer, or a
buffer with a channel count other than 1 or 3, makes `combineAnd` and
`combineOr` fail with an `InvalidBuffer` error before any processing
and with no output buffer.  In the code there is no validation at all:
an equal-size empty pair and an equal-size 4-channel pair are both
processed to completion and an output buffer is produced. -/
theorem c1_counterexample :
    okB (logical_and emptyG emptyG) = true ∧
    okShape (logical_and emptyG emptyG) = [0, 0] ∧
    okB (union_operation emptyG emptyG) = true ∧
    okB (logical_and quad11 quad11) = true ∧
    okB (union_operation quad11 quad11) = true :=
  ⟨rfl, rfl, rfl, rfl, rfl⟩

/-- C1, amended: `logical_and` and `union_operation` perform no input
validation and no `InvalidBuffer` error exists; any pair of equal-shape
2-D buffers within the size ceiling — the empty 0 by 0 buffer included
— is processed successfully and yields an output buffer.  Failures on
degenerate inputs can only arise mid-pipeline from the modelled OpenCV
calls, never from a pre-processing validation step. -/
theorem c1_amended (a b : Image) (h w : Nat)
    (hsa : a.shape = [h, w]) (hsb : b.shape = [h, w])
    (hh : h ≤ max_dimension) (hw : w ≤ max_dimension) :
    okB (logical_and a b) = true ∧
    okB (union_operation a b) = true := by
  constructor
  · rw [logical_and_eq_combineWith]
    exact combineWith_ok_2d Nat.land a b h w hsa hsb hh hw
  · rw [union_eq_combineWith]
    exact combineWith_ok_2d Nat.lor a b h w hsa hsb hh hw

/-- C1, witness: the amended statement applied to the design document's
own scenario, the empty 0 by 0 grayscale buffer. -/
theorem c1_witness :
    emptyG.shape = [0, 0] ∧ (0 : Nat) ≤ max_dimension ∧
    (okB (logical_and emptyG emptyG) = true ∧
      okB (union_operation emptyG emptyG) = true) :=
  ⟨rfl, by decide,
    c1_amended emptyG emptyG 0 0 rfl rfl (by decide) (by decide)⟩

/-- C2: `get_image_info` reports `shape[0]` as height and `shape[1]` as
width correctly, but its channels entry evaluates the slipped
expression `len(img.shape) if len(img.shape) == 2 else img.shape[2]`:
for a 2-D grayscale buffer it reports 2 — the number of array
dimensions — instead of the channel count 1 the field name and the
design document intend.  For a 3-channel buffer it correctly reports
3. -/
theorem c2_channels_bug :
    (get_image_info gray23).height = 2 ∧
    (get_image_info gray23).width = 3 ∧
    (get_image_info gray23).channels = 2 ∧
    ¬((get_image_info gray23).channels = 1) ∧
    (get_image_info color23).height = 2 ∧
    (get_image_info color23).width = 3 ∧
    (get_image_info color23).channels = 3 :=
  ⟨rfl, rfl, rfl, by decide, rfl, rfl, rfl⟩

/-- C6, counterexample: the claim says a pair of valid inputs with
mismatched dimensions always yields a result rather than an error.  For
the valid mismatched pair 1 by 5000 and 2 by 5000 the reconciled target
is 1 by 5000, and the subsequent 2048 clamp computes
`int(1 * 2048/5000) = 0` for the new height, so the second resize is
asked for a zero dimension and the call raises instead of returning a
buffer. -/
theorem c6_counterexample :
    Valid thin1 ∧ Valid thin2 ∧
    ¬(thin1.height = thin2.height ∧ thin1.width = thin2.width) ∧
    logical_and thin1 thin2 = Except.error CvErr.badTargetSize ∧
    union_operation thin1 thin2 = Except.error CvErr.badTargetSize :=
  ⟨by decide, by decide, by decide, rfl, rfl⟩

/-- C6, amended: a dimension mismatch between valid inputs is always
reconciled by `resize_to_match` itself without error; the combine call
returns a result of the reconciled dimensions whenever the post-
reconciliation 2048 clamp keeps both dimensions positive (in
particular whenever both reconciled dimensions are at most 2048).  The
only failure mode is the clamp computing a zero dimension, which is
independent of whether the inputs matched. -/
theorem c6_amended (a b : Image) (ha : Valid a) (hb : Valid b)
    (_hne : ¬(a.height = b.height ∧ a.width = b.width))
    (hp : 0 < (finalDims a b).1) (hq : 0 < (finalDims a b).2) :
    okB (logical_and a b) = true ∧
    okB (union_operation a b) = true ∧
    okShape (logical_and a b) = [(finalDims a b).1, (finalDims a b).2] ∧
    okShape (union_operation a b) =
      [(finalDims a b).1, (finalDims a b).2] := by
  obtain ⟨r1, h1, hs1, _, _⟩ :=
    combineWith_spec Nat.land a b ha hb hp hq
  obtain ⟨r2, h2, hs2, _, _⟩ :=
    combineWith_spec Nat.lor a b ha hb hp hq
  rw [logical_and_eq_combineWith, union_eq_combineWith, h1, h2]
  exact ⟨rfl, rfl, hs1, hs2⟩

/-- C6, witness: the mismatched 4 by 4 / 2 by 2 scenario from the
design document succeeds with a 2 by 2 result. -/
theorem c6_witness :
    Valid white44 ∧ Valid black22 ∧
    ¬(white44.height = black22.height ∧
      white44.width = black22.width) ∧
    0 < (finalDims white44 black22).1 ∧
    0 < (finalDims white44 black22).2 ∧
    (okB (logical_and white44 black22) = true ∧
      okB (union_operation white44 black22) = true ∧
      okShape (logical_and white44 black22) =
        [(finalDims white44 black22).1, (finalDims white44 black22).2] ∧
      okShape (union_operation white44 black22) =
        [(finalDims white44 black22).1,
          (finalDims white44 black22).2]) :=
  ⟨by decide, by decide, by decide, by decide, by decide,
    c6_amended white44 black22 (by decide) (by decide) (by decide)
      (by decide) (by decide)⟩

/-- C10: `optimize_memory_usage` on a valid non-uint8 buffer within the
size ceiling succeeds, marks the result uint8, keeps the shape, and
replaces every element by its value modulo 256 — numpy's
`astype(np.uint8)` C-style wraparound, not saturation (so 256 becomes 0
and 300 becomes 44).  In `logical_and`/`union_operation` this runs
before `convert_to_binary`. -/
theorem c10_uint8_cast (img : Image) (_hv : Valid img)
    (hu : img.u8 = false)
    (hh : img.height ≤ max_dimension)
    (hw : img.width ≤ max_dimension) :
    okB (optimize_memory_usage img) = true ∧
    okU8 (optimize_memory_usage img) = true ∧
    okShape (optimize_memory_usage img) = img.shape ∧
    (∀ i j k, okPx (optimize_memory_usage img) i j k =
      img.px i j k % 256) := by
  have hbig : ¬(max_dimension < img.height ∨
      max_dimension < img.width) := by omega
  have hrif : resize_if_needed img = .ok img := by
    unfold resize_if_needed; rw [if_neg hbig]
  have hopt : optimize_memory_usage img =
      .ok ⟨img.shape, fun i j k => img.px i j k % 256, true⟩ := by
    unfold optimize_memory_usage
    rw [hrif, ok_bind]
    simp [hu]
  rw [hopt]
  exact ⟨rfl, rfl, rfl, fun i j k => rfl⟩

/-- C10, witness: the cast applied to a concrete non-uint8 buffer whose
elements 300 and 256 wrap to 44 and 0. -/
theorem c10_witness :
    Valid nonU8 ∧ nonU8.u8 = false ∧
    nonU8.height ≤ max_dimension ∧ nonU8.width ≤ max_dimension ∧
    (okB (optimize_memory_usage nonU8) = true ∧
      okU8 (optimize_memory_usage nonU8) = true ∧
      okShape (optimize_memory_usage nonU8) = nonU8.shape ∧
      (∀ i j k, okPx (optimize_memory_usage nonU8) i j k =
        nonU8.px i j k % 256)) ∧
    okPx (optimize_memory_usage nonU8) 0 0 0 = 44 ∧
    okPx (optimize_memory_usage nonU8) 0 1 0 = 0 :=
  ⟨by decide, rfl, by decide, by decide,
    c10_uint8_cast nonU8 (by decide) rfl (by decide) (by decide),
    rfl, rfl⟩

/-- C3: whenever a combine call on valid inputs returns a buffer, its
height and width are at most the componentwise minima of the input
dimensions and at most 2048: reconciliation never upsamples and the
size ceiling is enforced. -/
theorem c3_result_dims (a b : Image) (ha : Valid a) (hb : Valid b)
    (h1 : okB (logical_and a b) = true)
    (_h2 : okB (union_operation a b) = true) :
    ((okShape (logical_and a b)).getD 0 0 ≤ min a.height b.height ∧
      (okShape (logical_and a b)).getD 1 0 ≤ min a.width b.width ∧
      (okShape (logical_and a b)).getD 0 0 ≤ max_dimension ∧
      (okShape (logical_and a b)).getD 1 0 ≤ max_dimension) ∧
    ((okShape (union_operation a b)).getD 0 0 ≤
        min a.height b.height ∧
      (okShape (union_operation a b)).getD 1 0 ≤ min a.width b.width ∧
      (okShape (union_operation a b)).getD 0 0 ≤ max_dimension ∧
      (okShape (union_operation a b)).getD 1 0 ≤ max_dimension) := by
  by_cases hpos : 0 < (finalDims a b).1 ∧ 0 < (finalDims a b).2
  · obtain ⟨r1, hr1, hs1, _, _⟩ :=
      combineWith_spec Nat.land a b ha hb hpos.1 hpos.2
    obtain ⟨r2, hr2, hs2, _, _⟩ :=
      combineWith_spec Nat.lor a b ha hb hpos.1 hpos.2
    have e1 : okShape (combineWith Nat.land a b) =
        [(finalDims a b).1, (finalDims a b).2] := by
      rw [hr1]; exact hs1
    have e2 : okShape (combineWith Nat.lor a b) =
        [(finalDims a b).1, (finalDims a b).2] := by
      rw [hr2]; exact hs2
    have hl := clampDims_le (min a.height b.height)
      (min a.width b.width)
    rw [logical_and_eq_combineWith, union_eq_combineWith, e1, e2]
    exact ⟨⟨hl.1, hl.2.2.1, hl.2.1, hl.2.2.2⟩,
      ⟨hl.1, hl.2.2.1, hl.2.1, hl.2.2.2⟩⟩
  · exfalso
    have he := combineWith_err Nat.land a b ha hb hpos
    rw [logical_and_eq_combineWith, he] at h1
    exact absurd h1 (by decide)

/-- C3, witness: the mismatched oversized-free pair 4 by 4 and 2 by 2
yields a 2 by 2 result within all the bounds. -/
theorem c3_witness :
    Valid white44 ∧ Valid mix22 ∧
    okB (logical_and white44 mix22) = true ∧
    okB (union_operation white44 mix22) = true ∧
    (((okShape (logical_and white44 mix22)).getD 0 0 ≤
        min white44.height mix22.height ∧
      (okShape (logical_and white44 mix22)).getD 1 0 ≤
        min white44.width mix22.width ∧
      (okShape (logical_and white44 mix22)).getD 0 0 ≤ max_dimension ∧
      (okShape (logical_and white44 mix22)).getD 1 0 ≤
        max_dimension) ∧
    ((okShape (union_operation white44 mix22)).getD 0 0 ≤
        min white44.height mix22.height ∧
      (okShape (union_operation white44 mix22)).getD 1 0 ≤
        min white44.width mix22.width ∧
      (okShape (union_operation white44 mix22)).getD 0 0 ≤
        max_dimension ∧
      (okShape (union_operation white44 mix22)).getD 1 0 ≤
        max_dimension)) :=
  ⟨by decide, by decide, rfl, rfl,
    c3_result_dims white44 mix22 (by decide) (by decide) rfl rfl⟩

/-- C4: `convert_to_binary` always succeeds on a valid buffer, produces
the 2-D single-channel shape, and its elements are the fixed threshold
of the grayscale value: strictly greater than 127 becomes 255,
everything else 0.  The grayscale value is the luma-weighted BGR to
gray conversion for a 3-channel buffer and the untouched element for an
already single-channel buffer. -/
theorem c4_binarize (img : Image) (h w : Nat)
    (hsh : img.shape = [h, w, 3] ∨ img.shape = [h, w])
    (hh : 0 < h) (hw : 0 < w) :
    okB (convert_to_binary img) = true ∧
    okShape (convert_to_binary img) = [h, w] ∧
    (∀ i j k, okPx (convert_to_binary img) i j k =
      if 127 < grayPoint img i j k then 255 else 0) ∧
    (img.shape = [h, w] → ∀ i j k,
      grayPoint img i j k = img.px i j k) ∧
    (img.shape = [h, w, 3] → ∀ i j k, grayPoint img i j k =
      bgr2grayPx (img.px i j 0) (img.px i j 1) (img.px i j 2)) := by
  have hv : Valid img := by
    rcases hsh with hs | hs
    · exact valid_of_shape img h w [3] (by rw [hs]; rfl) (Or.inr rfl)
        hh hw
    · exact valid_of_shape img h w [] (by rw [hs]; rfl) (Or.inl rfl)
        hh hw
  have hH : img.height = h := by
    show img.shape.getD 0 0 = h
    rcases hsh with hs | hs <;> rw [hs] <;> rfl
  have hW : img.width = w := by
    show img.shape.getD 1 0 = w
    rcases hsh with hs | hs <;> rw [hs] <;> rfl
  obtain ⟨r, hr, hrsh, _, hrpx⟩ := cvt_spec img hv
  rw [hr]
  refine ⟨rfl, ?_, ?_, ?_, ?_⟩
  · show r.shape = [h, w]
    rw [hrsh, hH, hW]
  · intro i j k
    exact hrpx i j k
  · intro hs2 i j k
    unfold grayPoint
    rw [if_neg (by rw [hs2]; simp)]
  · intro hs3 i j k
    unfold grayPoint
    rw [if_pos (by rw [hs3]; rfl)]

/-- C4, witness: binarization of a concrete 1 by 1 BGR pixel (blue 10,
green 200, red 30), whose luma 128 exceeds the threshold, with the
resulting element evaluated to 255. -/
theorem c4_witness :
    (bgr11.shape = [1, 1, 3] ∨ bgr11.shape = [1, 1]) ∧
    (okB (convert_to_binary bgr11) = true ∧
      okShape (convert_to_binary bgr11) = [1, 1] ∧
      (∀ i j k, okPx (convert_to_binary bgr11) i j k =
        if 127 < grayPoint bgr11 i j k then 255 else 0) ∧
      (bgr11.shape = [1, 1] → ∀ i j k,
        grayPoint bgr11 i j k = bgr11.px i j k) ∧
      (bgr11.shape = [1, 1, 3] → ∀ i j k, grayPoint bgr11 i j k =
        bgr2grayPx (bgr11.px i j 0) (bgr11.px i j 1)
          (bgr11.px i j 2))) ∧
    grayPoint bgr11 0 0 0 = 128 ∧
    okPx (convert_to_binary bgr11) 0 0 0 = 255 :=
  ⟨Or.inl rfl,
    c4_binarize bgr11 1 1 (Or.inl rfl) (by decide) (by decide),
    rfl, rfl⟩

/-- C5: whenever a combine call on valid inputs returns a buffer, that
buffer is single-channel (2-D shape) with the reconciled post-clamp
dimensions, and every one of its elements is exactly 0 or 255. -/
theorem c5_binary_output (a b : Image) (ha : Valid a) (hb : Valid b)
    (h1 : okB (logical_and a b) = true)
    (_h2 : okB (union_operation a b) = true) :
    okShape (logical_and a b) =
      [(finalDims a b).1, (finalDims a b).2] ∧
    (okShape (logical_and a b)).length = 2 ∧
    (∀ i j k, okPx (logical_and a b) i j k = 0 ∨
      okPx (logical_and a b) i j k = 255) ∧
    okShape (union_operation a b) =
      [(finalDims a b).1, (finalDims a b).2] ∧
    (okShape (union_operation a b)).length = 2 ∧
    (∀ i j k, okPx (union_operation a b) i j k = 0 ∨
      okPx (union_operation a b) i j k = 255) := by
  by_cases hpos : 0 < (finalDims a b).1 ∧ 0 < (finalDims a b).2
  · obtain ⟨r1, hr1, hs1, _, hpx1⟩ :=
      combineWith_spec Nat.land a b ha hb hpos.1 hpos.2
    obtain ⟨r2, hr2, hs2, _, hpx2⟩ :=
      combineWith_spec Nat.lor a b ha hb hpos.1 hpos.2
    rw [logical_and_eq_combineWith, union_eq_combineWith, hr1, hr2]
    refine ⟨hs1, ?_, ?_, hs2, ?_, ?_⟩
    · show r1.shape.length = 2
      rw [hs1]; rfl
    · intro i j k
      show r1.px i j k = 0 ∨ r1.px i j k = 255
      obtain ⟨x, y, hx, hy, hxy⟩ := hpx1 i j k
      rw [hxy]
      rcases hx with rfl | rfl <;> rcases hy with rfl | rfl <;> decide
    · show r2.shape.length = 2
      rw [hs2]; rfl
    · intro i j k
      show r2.px i j k = 0 ∨ r2.px i j k = 255
      obtain ⟨x, y, hx, hy, hxy⟩ := hpx2 i j k
      rw [hxy]
      rcases hx with rfl | rfl <;> rcases hy with rfl | rfl <;> decide
  · exfalso
    have he := combineWith_err Nat.land a b ha hb hpos
    rw [logical_and_eq_combineWith, he] at h1
    exact absurd h1 (by decide)

/-- C5, witness: a concrete 1 by 1 pair (values 200 and 100) whose
combine results exist and are binary. -/
theorem c5_witness :
    Valid wit1 ∧ Valid wit2 ∧
    okB (logical_and wit1 wit2) = true ∧
    okB (union_operation wit1 wit2) = true ∧
    (okShape (logical_and wit1 wit2) =
      [(finalDims wit1 wit2).1, (finalDims wit1 wit2).2] ∧
    (okShape (logical_and wit1 wit2)).length = 2 ∧
    (∀ i j k, okPx (logical_and wit1 wit2) i j k = 0 ∨
      okPx (logical_and wit1 wit2) i j k = 255) ∧
    okShape (union_operation wit1 wit2) =
      [(finalDims wit1 wit2).1, (finalDims wit1 wit2).2] ∧
    (okShape (union_operation wit1 wit2)).length = 2 ∧
    (∀ i j k, okPx (union_operation wit1 wit2) i j k = 0 ∨
      okPx (union_operation wit1 wit2) i j k = 255)) :=
  ⟨by decide, by decide, rfl, rfl,
    c5_binary_output wit1 wit2 (by decide) (by decide) rfl rfl⟩

/-- C7: for any single-channel binary buffer (elements all 0 or 255,
positive dimensions at most 2048, uint8), combining it with itself
under AND and under OR returns that buffer unchanged — same shape, same
dtype, same pixels. -/
theorem c7_idempotent (x : Image) (h w : Nat)
    (hs : x.shape = [h, w]) (_hh : 0 < h) (hh2 : h ≤ max_dimension)
    (_hw : 0 < w) (hw2 : w ≤ max_dimension) (hu : x.u8 = true)
    (hbin : ∀ i j k, x.px i j k = 0 ∨ x.px i j k = 255) :
    okB (logical_and x x) = true ∧
    okShape (logical_and x x) = x.shape ∧
    okU8 (logical_and x x) = x.u8 ∧
    (∀ i j k, okPx (logical_and x x) i j k = x.px i j k) ∧
    okB (union_operation x x) = true ∧
    okShape (union_operation x x) = x.shape ∧
    okU8 (union_operation x x) = x.u8 ∧
    (∀ i j k, okPx (union_operation x x) i j k = x.px i j k) := by
  have hah : x.height = h := by
    show x.shape.getD 0 0 = h
    rw [hs]; rfl
  have haw : x.width = w := by
    show x.shape.getD 1 0 = w
    rw [hs]; rfl
  have hrtm : resize_to_match x x = .ok (x, x) := by
    unfold resize_to_match; rw [if_pos ⟨rfl, rfl⟩]
  have hbig : ¬(max_dimension < x.height ∨
      max_dimension < x.width) := by
    rw [hah, haw]; omega
  have hopt : optimize_memory_usage x = .ok x := by
    unfold optimize_memory_usage resize_if_needed
    rw [if_neg hbig, ok_bind]
    simp [hu]
  have hlen : ¬(x.shape.length = 3) := by rw [hs]; simp
  have hcvt : convert_to_binary x = .ok (thresholdBinary127 x) := by
    unfold convert_to_binary
    rw [if_neg hlen, ok_bind]
  have hcomb : ∀ f : Nat → Nat → Nat,
      combineWith f x x = .ok ⟨x.shape,
        fun i j k => f ((thresholdBinary127 x).px i j k)
          ((thresholdBinary127 x).px i j k), x.u8⟩ := by
    intro f
    have hbc : bitwiseCombine f (thresholdBinary127 x)
        (thresholdBinary127 x) = .ok ⟨x.shape,
        fun i j k => f ((thresholdBinary127 x).px i j k)
          ((thresholdBinary127 x).px i j k), x.u8⟩ := by
      unfold bitwiseCombine
      rw [if_pos ⟨rfl, rfl⟩]
      rfl
    simp only [combineWith, hrtm, ok_bind, hopt, hcvt, hbc]
  rw [logical_and_eq_combineWith, union_eq_combineWith,
    hcomb Nat.land, hcomb Nat.lor]
  refine ⟨rfl, rfl, rfl, ?_, rfl, rfl, rfl, ?_⟩
  · intro i j k
    show Nat.land (if 127 < x.px i j k then 255 else 0)
      (if 127 < x.px i j k then 255 else 0) = x.px i j k
    rcases hbin i j k with h0 | h0 <;> rw [h0] <;> decide
  · intro i j k
    show Nat.lor (if 127 < x.px i j k then 255 else 0)
      (if 127 < x.px i j k then 255 else 0) = x.px i j k
    rcases hbin i j k with h0 | h0 <;> rw [h0] <;> decide

/-- C7, witness: the all-white 2 by 2 binary buffer is a fixed point of
both self-combinations. -/
theorem c7_witness :
    bin22.shape = [2, 2] ∧ (0 : Nat) < 2 ∧ (2 : Nat) ≤ max_dimension ∧
    bin22.u8 = true ∧ (∀ i j k, bin22.px i j k = 0 ∨
      bin22.px i j k = 255) ∧
    (okB (logical_and bin22 bin22) = true ∧
      okShape (logical_and bin22 bin22) = bin22.shape ∧
      okU8 (logical_and bin22 bin22) = bin22.u8 ∧
      (∀ i j k, okPx (logical_and bin22 bin22) i j k =
        bin22.px i j k) ∧
      okB (union_operation bin22 bin22) = true ∧
      okShape (union_operation bin22 bin22) = bin22.shape ∧
      okU8 (union_operation bin22 bin22) = bin22.u8 ∧
      (∀ i j k, okPx (union_operation bin22 bin22) i j k =
        bin22.px i j k)) :=
  ⟨rfl, by decide, by decide, rfl, fun _ _ _ => Or.inr rfl,
    c7_idempotent bin22 2 2 rfl (by decide) (by decide) (by decide)
      (by decide) rfl (fun _ _ _ => Or.inr rfl)⟩

/-- C8: for valid buffers sharing their dimensions, both combine
operations are commutative — swapping the inputs yields the identical
result value. -/
theorem c8_commutative (a b : Image) (ha : Valid a) (hb : Valid b)
    (hhh : a.height = b.height) (hww : a.width = b.width) :
    logical_and a b = logical_and b a ∧
    union_operation a b = union_operation b a := by
  constructor
  · rw [logical_and_eq_combineWith, logical_and_eq_combineWith]
    exact combineWith_comm Nat.land Nat.land_comm a b ha hb hhh hww
  · rw [union_eq_combineWith, union_eq_combineWith]
    exact combineWith_comm Nat.lor Nat.lor_comm a b ha hb hhh hww

/-- C8, witness: commutativity applied to a concrete same-size
grayscale and 3-channel pair. -/
theorem c8_witness :
    Valid gray23 ∧ Valid color23 ∧
    gray23.height = color23.height ∧ gray23.width = color23.width ∧
    (logical_and gray23 color23 = logical_and color23 gray23 ∧
      union_operation gray23 color23 = union_operation color23 gray23) :=
  ⟨by decide, by decide, rfl, rfl,
    c8_commutative gray23 color23 (by decide) (by decide) rfl rfl⟩

/-- C9: combining an all-zero buffer with anything under AND yields the
all-zero buffer of the reconciled target size, and combining an all-255
buffer with anything under OR yields the all-255 buffer of the
reconciled target size. -/
theorem c9_absorbing (z u b : Image) (hz : Valid z) (hu : Valid u)
    (hb : Valid b)
    (hz0 : ∀ i j k, z.px i j k = 0)
    (hu255 : ∀ i j k, u.px i j k = 255)
    (hp1 : 0 < (finalDims z b).1) (hq1 : 0 < (finalDims z b).2)
    (hp2 : 0 < (finalDims u b).1) (hq2 : 0 < (finalDims u b).2) :
    okShape (logical_and z b) =
      [(finalDims z b).1, (finalDims z b).2] ∧
    (∀ i j k, okPx (logical_and z b) i j k = 0) ∧
    okShape (union_operation u b) =
      [(finalDims u b).1, (finalDims u b).2] ∧
    (∀ i j k, okPx (union_operation u b) i j k = 255) := by
  have habs0 : ∀ y, (y = 0 ∨ y = 255) →
      Nat.land (if 127 < (0 : Nat) then 255 else 0) y =
        if 127 < (0 : Nat) then 255 else 0 := by
    intro y hy; rcases hy with rfl | rfl <;> decide
  have habs255 : ∀ y, (y = 0 ∨ y = 255) →
      Nat.lor (if 127 < (255 : Nat) then 255 else 0) y =
        if 127 < (255 : Nat) then 255 else 0 := by
    intro y hy; rcases hy with rfl | rfl <;> decide
  have hA := combineWith_const_left Nat.land 0 (Or.inl rfl) z b hz hb
    hz0 habs0 hp1 hq1
  have hO := combineWith_const_left Nat.lor 255 (Or.inr rfl) u b hu hb
    hu255 habs255 hp2 hq2
  rw [logical_and_eq_combineWith, union_eq_combineWith]
  refine ⟨hA.1, ?_, hO.1, ?_⟩
  · intro i j k
    have hx := hA.2 i j k
    simpa using hx
  · intro i j k
    have hx := hO.2 i j k
    simpa using hx

/-- C9, witness: the absorber laws applied to concrete 4 by 4 constant
buffers against a mixed 2 by 2 buffer (the reconciled size is 2 by
2). -/
theorem c9_witness :
    Valid zero44 ∧ Valid white44 ∧ Valid mix22 ∧
    (∀ i j k, zero44.px i j k = 0) ∧
    (∀ i j k, white44.px i j k = 255) ∧
    0 < (finalDims zero44 mix22).1 ∧ 0 < (finalDims zero44 mix22).2 ∧
    0 < (finalDims white44 mix22).1 ∧ 0 < (finalDims white44 mix22).2 ∧
    (okShape (logical_and zero44 mix22) =
      [(finalDims zero44 mix22).1, (finalDims zero44 mix22).2] ∧
    (∀ i j k, okPx (logical_and zero44 mix22) i j k = 0) ∧
    okShape (union_operation white44 mix22) =
      [(finalDims white44 mix22).1, (finalDims white44 mix22).2] ∧
    (∀ i j k, okPx (union_operation white44 mix22) i j k = 255)) :=
  ⟨by decide, by decide, by decide, fun _ _ _ => rfl,
    fun _ _ _ => rfl, by decide, by decide, by decide, by decide,
    c9_absorbing zero44 white44 mix22 (by decide) (by decide)
      (by decide) (fun _ _ _ => rfl) (fun _ _ _ => rfl) (by decide)
      (by decide) (by decide) (by decide)⟩

end ImageHW
